import Mathlib

/-!
Shallow embedding of the skipera item-processing orchestrator
(`src/main.py`, class `Skipera` and the `main` entry point).

The network collaborators (video metadata fetch + watch simulator, reading
completion POST, assessment solver) are modelled as oracle parameters:
an `Except String Unit` outcome per item, where `Except.error e` models a
raised Python exception with message `e` and `Except.ok ()` a normal return.
Log output (loguru) is modelled as a list of `LogEntry`.
-/

deriving instance DecidableEq for Except

namespace Skipera

/-- A single quote character, used inside log-message strings. -/
def sq : String := (Char.ofNat 39).toString

/-- The `contentSummary` field of a course-material item: only its
`typeName` tag is consulted by `Skipera.get_course`. -/
structure ContentSummary where
  typeName : String
deriving DecidableEq

/-- One record of `r["linked"]["onDemandCourseMaterialItems.v2"]`; the
orchestrator reads only `id`, `name` and `contentSummary.typeName`. -/
structure Item where
  id : String
  name : String
  contentSummary : ContentSummary
deriving DecidableEq

/-- One loguru log line, tagged with its level. -/
inductive LogEntry where
  | debug : String → LogEntry
  | info : String → LogEntry
  | warning : String → LogEntry
  | error : String → LogEntry
deriving DecidableEq

/-- The three buckets built by the classification loop of
`Skipera.get_course` (`videos`, `readings`, `assessments` lists). -/
structure Buckets where
  videos : List Item
  readings : List Item
  assessments : List Item
deriving DecidableEq

/-- The classification loop of `Skipera.get_course` (src/main.py lines
72-87): one pass over the item list, appending each item to at most one
bucket according to its `typeName` and the `llm`/`eva` flags, emitting the
skip log lines of the source. Returns the buckets and the log. -/
def classify (llm eva : Bool) : List Item → Buckets × List LogEntry
  | [] => (⟨[], [], []⟩, [])
  | item :: rest =>
    let r := classify llm eva rest
    let b := r.1
    let log := r.2
    let t := item.contentSummary.typeName
    if t = "lecture" then
      if eva then
        (b, LogEntry.debug ("Skipping video " ++ sq ++ item.name ++ sq
              ++ " (eva mode - only assessments)") :: log)
      else
        ({ b with videos := item :: b.videos }, log)
    else if t = "supplement" then
      if eva then
        (b, LogEntry.debug ("Skipping reading " ++ sq ++ item.name ++ sq
              ++ " (eva mode - only assessments)") :: log)
      else
        ({ b with readings := item :: b.readings }, log)
    else if t = "ungradedAssignment" ∨ t = "staffGraded" then
      if llm || eva then
        ({ b with assessments := item :: b.assessments }, log)
      else if t = "ungradedAssignment" then
        (b, LogEntry.info "Skipping ungraded assignment!" :: log)
      else
        (b, log)
    else
      (b, log)

/-- Result of running one processing phase: log lines produced, items
whose per-item processing was started, items whose collaborator call
completed successfully, and the exception (if one escaped the phase). -/
structure PhaseResult where
  log : List LogEntry
  attempted : List Item
  completedItems : List Item
  err : Option String
deriving DecidableEq

/-- The sequential video loop of `Skipera.get_course` (src/main.py lines
103-107): `logger.info(item["name"])` then metadata fetch + watch with NO
try/except, so the first exception escapes the loop and the remaining
items are not attempted. -/
def runVideosSeq (vOut : Item → Except String Unit) : List Item → PhaseResult
  | [] => ⟨[], [], [], none⟩
  | item :: rest =>
    match vOut item with
    | Except.error e => ⟨[LogEntry.info item.name], [item], [], some e⟩
    | Except.ok _ =>
      let r := runVideosSeq vOut rest
      ⟨LogEntry.info item.name :: r.log, item :: r.attempted,
        item :: r.completedItems, r.err⟩

/-- `Skipera._process_video` (src/main.py lines 124-132): logs Starting,
runs metadata fetch + watch inside try/except, logs Completed on success
or a Failed line on exception; never re-raises. Returns its log lines and
whether the item succeeded. -/
def processVideo (vOut : Item → Except String Unit) (item : Item) :
    List LogEntry × Bool :=
  match vOut item with
  | Except.ok _ =>
    ([LogEntry.info ("Starting: " ++ item.name),
      LogEntry.info ("Completed: " ++ item.name)], true)
  | Except.error e =>
    ([LogEntry.info ("Starting: " ++ item.name),
      LogEntry.error ("Failed to process " ++ item.name ++ ": " ++ e)], false)

/-- The parallel video branch of `Skipera.get_course` (src/main.py lines
90-102): every submitted item runs `_process_video`; the argument list is
the (nondeterministic) completion order of the pool. `_process_video`
catches every exception, so the phase itself never raises. -/
def runVideosPar (vOut : Item → Except String Unit) : List Item → PhaseResult
  | [] => ⟨[], [], [], none⟩
  | item :: rest =>
    let p := processVideo vOut item
    let r := runVideosPar vOut rest
    ⟨p.1 ++ r.log, item :: r.attempted,
      if p.2 then item :: r.completedItems else r.completedItems, none⟩

/-- Whether `needle` starts the character list `hay`
(`hay`, `needle` arguments in that order). -/
def charsStart : List Char → List Char → Bool
  | _, [] => true
  | [], _ :: _ => false
  | a :: hs, b :: ns => a == b && charsStart hs ns

/-- Whether `needle` occurs as a contiguous run inside `hay`. -/
def charsContain (needle : List Char) : List Char → Bool
  | [] => needle.isEmpty
  | c :: t => charsStart (c :: t) needle || charsContain needle t

/-- Python's `needle in hay` substring test on strings. -/
def strContains (hay needle : String) : Bool :=
  charsContain needle.toList hay.toList

/-- The soft-failure log message of `Skipera.read_item`. -/
def couldntReadMsg : String := "Couldn" ++ sq ++ "t read item!"

/-- `Skipera.read_item` (src/main.py lines 147-154): issues the
completion POST (its response body is the argument) and, when the body
does not contain the literal substring "Completed", logs a debug line.
It is total (returns normally in both cases; nothing is raised). -/
def readItemLog (body : String) : List LogEntry :=
  if strContains body "Completed" then [] else [LogEntry.debug couldntReadMsg]

/-- The sequential reading loop of `Skipera.get_course` (src/main.py
lines 110-111): `read_item` on every reading item, in order. -/
def runReadings (rBody : Item → String) : List Item → PhaseResult
  | [] => ⟨[], [], [], none⟩
  | item :: rest =>
    let r := runReadings rBody rest
    ⟨readItemLog (rBody item) ++ r.log, item :: r.attempted,
      item :: r.completedItems, none⟩

/-- Whether a type tag makes `get_course` instantiate the solver
(the two tags of the assessment loop's if/elif chain). -/
def solverTag (t : String) : Bool :=
  t = "ungradedAssignment" || t = "staffGraded"

/-- The sequential assessment loop of `Skipera.get_course` (src/main.py
lines 113-122): for each item, log the attempt line and run
`GradedSolver(...).solve()` with NO try/except, so an exception from the
solver escapes the loop and the remaining items are not attempted. Items
with other tags are skipped silently. -/
def runAssessments (aOut : Item → Except String Unit) : List Item → PhaseResult
  | [] => ⟨[], [], [], none⟩
  | item :: rest =>
    let t := item.contentSummary.typeName
    if t = "ungradedAssignment" then
      match aOut item with
      | Except.error e =>
        ⟨[LogEntry.info "Attempting to solve ungraded assessment.."],
          [item], [], some e⟩
      | Except.ok _ =>
        let r := runAssessments aOut rest
        ⟨LogEntry.info "Attempting to solve ungraded assessment.." :: r.log,
          item :: r.attempted, item :: r.completedItems, r.err⟩
    else if t = "staffGraded" then
      match aOut item with
      | Except.error e =>
        ⟨[LogEntry.info "Attempting to solve graded assessment.."],
          [item], [], some e⟩
      | Except.ok _ =>
        let r := runAssessments aOut rest
        ⟨LogEntry.info "Attempting to solve graded assessment.." :: r.log,
          item :: r.attempted, item :: r.completedItems, r.err⟩
    else
      runAssessments aOut rest

/-- Outcome of one `Skipera.get_course` run: the combined log, the items
attempted in each phase, and the exception that escaped `get_course`
(if any). -/
structure RunResult where
  log : List LogEntry
  videosAttempted : List Item
  readingsAttempted : List Item
  assessmentsAttempted : List Item
  err : Option String
deriving DecidableEq

/-- `Skipera.get_course` (src/main.py lines 42-122) after the content
fetch: classify the items, then the three phases in order. The video
phase is parallel when the flag is set AND the videos bucket is nonempty
(`if videos and self.parallel`), else sequential. `sched` gives the
completion order of the parallel pool. An exception escaping the
sequential video loop or the assessment loop propagates out of
`get_course`, skipping everything after it. -/
def getCourse (llm eva parallel : Bool) (vOut : Item → Except String Unit)
    (rBody : Item → String) (aOut : Item → Except String Unit)
    (sched : List Item → List Item) (items : List Item) : RunResult :=
  let c := classify llm eva items
  let b := c.1
  let vres :=
    if !b.videos.isEmpty && parallel then
      let pr := runVideosPar vOut (sched b.videos)
      { pr with log := LogEntry.info ("Processing " ++ toString b.videos.length
          ++ " videos in parallel (max 30 at a time)...") :: pr.log }
    else
      runVideosSeq vOut b.videos
  match vres.err with
  | some e => ⟨c.2 ++ vres.log, vres.attempted, [], [], some e⟩
  | none =>
    let rres := runReadings rBody b.readings
    let ares := runAssessments aOut b.assessments
    ⟨c.2 ++ vres.log ++ rres.log ++ ares.log, vres.attempted,
      rres.attempted, ares.attempted, ares.err⟩

/-- Flag triple after `main`'s normalization. -/
structure Flags where
  llm : Bool
  eva : Bool
  parallel : Bool
deriving DecidableEq

/-- The flag normalization at the top of `main` (src/main.py lines
163-170): `eva and llm` forces `llm = False` with a warning; then
`parallel and eva` forces `parallel = False` with a warning. Returns the
effective flags and the warning log. -/
def mainNormalize (llm eva parallel : Bool) : Flags × List LogEntry :=
  let p1 :=
    if eva && llm then
      ((false : Bool),
        [LogEntry.warning
          "Both llm and eva flags provided. Using eva mode (assessments only)."])
    else (llm, ([] : List LogEntry))
  let p2 :=
    if parallel && eva then
      ((false : Bool),
        [LogEntry.warning
          "parallel flag ignored in eva mode (no videos to process)."])
    else (parallel, ([] : List LogEntry))
  (⟨p1.1, eva, p2.1⟩, p1.2 ++ p2.2)

/-- `main` after normalization: the `get_course` run with the effective
flags. -/
def mainRun (llm eva parallel : Bool) (vOut : Item → Except String Unit)
    (rBody : Item → String) (aOut : Item → Except String Unit)
    (sched : List Item → List Item) (items : List Item) : RunResult :=
  let f := (mainNormalize llm eva parallel).1
  getCourse f.llm f.eva f.parallel vOut rBody aOut sched items

/-! ### Worker-pool model for the parallel video phase

`ThreadPoolExecutor(max_workers=30)` with all items submitted up front
(src/main.py lines 90-102) is modelled as a transition system: a state
holds the not-yet-started submissions (in submission order), the items
currently running, and the finished items. A pending item may start only
while fewer than `maxWorkers` items are running; any running item may
finish, in any order. `as_completed` + the `with` block mean `get_course`
proceeds past the phase only when no step is possible any more. -/

/-- The `max_workers=30` cap of src/main.py line 92. -/
def maxWorkers : Nat := 30

/-- Pool state: pending submissions (in submission order), items in
flight, finished items (most recent first). -/
structure PoolState where
  pending : List Item
  running : List Item
  done : List Item
deriving DecidableEq

/-- One scheduler step of the bounded pool: start the next pending item
(only when under the worker cap), or finish any running item. -/
inductive PoolStep : PoolState → PoolState → Prop
  | start (item : Item) (pending running done : List Item) :
      running.length < maxWorkers →
      PoolStep ⟨item :: pending, running, done⟩ ⟨pending, item :: running, done⟩
  | finish (item : Item) (pending r1 r2 done : List Item) :
      PoolStep ⟨pending, r1 ++ item :: r2, done⟩ ⟨pending, r1 ++ r2, item :: done⟩

/-- States reachable from `init` by pool steps. -/
inductive PoolReach (init : PoolState) : PoolState → Prop
  | refl : PoolReach init init
  | step {s t : PoolState} : PoolReach init s → PoolStep s t → PoolReach init t

/-- The state in which the video phase begins: all videos submitted,
none started. -/
def initPool (videos : List Item) : PoolState := ⟨videos, [], []⟩

/-- A pool state from which no step is possible: the executor's
`as_completed` loop (and the `with` block) can only return here. -/
def PoolStuck (s : PoolState) : Prop := ∀ t, ¬ PoolStep s t

/-- The log the parallel branch produces on an all-successful order:
Starting then Completed per item, in completion order. -/
def parOkLog : List Item → List LogEntry
  | [] => []
  | i :: rest =>
    LogEntry.info ("Starting: " ++ i.name) ::
      LogEntry.info ("Completed: " ++ i.name) :: parOkLog rest

/-! ### Concrete items and oracles used to instantiate the theorems -/

/-- A sample lecture item. -/
def vSample1 : Item := ⟨"i1", "v1", ⟨"lecture"⟩⟩

/-- A second sample lecture item. -/
def vSample2 : Item := ⟨"i2", "v2", ⟨"lecture"⟩⟩

/-- A sample supplement (reading) item. -/
def rSample1 : Item := ⟨"i3", "r1", ⟨"supplement"⟩⟩

/-- A sample ungraded-assignment item. -/
def aSample1 : Item := ⟨"i4", "a1", ⟨"ungradedAssignment"⟩⟩

/-- A sample staff-graded item. -/
def aSample2 : Item := ⟨"i5", "a2", ⟨"staffGraded"⟩⟩

/-- A sample item with an unrecognized type tag. -/
def xSample1 : Item := ⟨"i6", "x1", ⟨"quiz"⟩⟩

/-- Collaborator oracle on which every per-item call returns normally. -/
def okOut : Item → Except String Unit := fun _ => Except.ok ()

/-- Collaborator oracle that raises on the item named "v1" and returns
normally on every other item. -/
def failOnV1 : Item → Except String Unit :=
  fun i => if i.name = "v1" then Except.error "boom" else Except.ok ()

/-- Solver oracle that raises on the item named "a1" and returns
normally on every other item. -/
def failOnA1 : Item → Except String Unit :=
  fun i => if i.name = "a1" then Except.error "solver boom" else Except.ok ()

/-! ### Classifier lemmas -/

/-- The videos bucket is the lecture items in order, or empty under eva. -/
theorem classify_videos (llm eva : Bool) (items : List Item) :
    (classify llm eva items).1.videos =
      if eva then []
      else items.filter (fun i => i.contentSummary.typeName == "lecture") := by
  induction items with
  | nil => cases eva <;> simp [classify]
  | cons hd rest ih =>
    simp only [classify]
    by_cases h1 : hd.contentSummary.typeName = "lecture"
    · cases eva <;> simp [h1, ih, List.filter_cons]
    · by_cases h2 : hd.contentSummary.typeName = "supplement"
      · cases eva <;> simp [h1, h2, ih, List.filter_cons]
      · by_cases h3 : hd.contentSummary.typeName = "ungradedAssignment" ∨
            hd.contentSummary.typeName = "staffGraded"
        · cases eva <;> cases llm <;>
            simp [h1, h2, h3, ih, List.filter_cons] <;>
            rcases h3 with h3 | h3 <;> simp [h3, ih, List.filter_cons]
        · cases eva <;> simp [h1, h2, h3, ih, List.filter_cons]

/-- The readings bucket is the supplement items in order, or empty under
eva. -/
theorem classify_readings (llm eva : Bool) (items : List Item) :
    (classify llm eva items).1.readings =
      if eva then []
      else items.filter (fun i => i.contentSummary.typeName == "supplement") := by
  induction items with
  | nil => cases eva <;> simp [classify]
  | cons hd rest ih =>
    simp only [classify]
    by_cases h1 : hd.contentSummary.typeName = "lecture"
    · cases eva <;> simp [h1, ih, List.filter_cons]
    · by_cases h2 : hd.contentSummary.typeName = "supplement"
      · cases eva <;> simp [h1, h2, ih, List.filter_cons]
      · by_cases h3 : hd.contentSummary.typeName = "ungradedAssignment" ∨
            hd.contentSummary.typeName = "staffGraded"
        · cases eva <;> cases llm <;>
            simp [h1, h2, h3, ih, List.filter_cons] <;>
            rcases h3 with h3 | h3 <;> simp [h3, ih, List.filter_cons]
        · cases eva <;> simp [h1, h2, h3, ih, List.filter_cons]

/-- The assessments bucket is the solver-tagged items in order when
`llm or eva` holds, and empty otherwise. -/
theorem classify_assessments (llm eva : Bool) (items : List Item) :
    (classify llm eva items).1.assessments =
      if llm || eva then
        items.filter (fun i => solverTag i.contentSummary.typeName)
      else [] := by
  induction items with
  | nil => cases llm <;> cases eva <;> simp [classify]
  | cons hd rest ih =>
    simp only [classify]
    by_cases h1 : hd.contentSummary.typeName = "lecture"
    · cases eva <;> cases llm <;> simp [h1, solverTag, ih, List.filter_cons]
    · by_cases h2 : hd.contentSummary.typeName = "supplement"
      · cases eva <;> cases llm <;> simp [h1, h2, solverTag, ih, List.filter_cons]
      · by_cases h3 : hd.contentSummary.typeName = "ungradedAssignment" ∨
            hd.contentSummary.typeName = "staffGraded"
        · cases eva <;> cases llm <;>
            simp [h1, h2, h3, solverTag, ih, List.filter_cons] <;>
            rcases h3 with h3 | h3 <;> simp [h3, solverTag, ih, List.filter_cons]
        · push_neg at h3
          cases eva <;> cases llm <;>
            simp [h1, h2, h3.1, h3.2, solverTag, ih, List.filter_cons]

/-- The classifier is insensitive to `llm` when `eva` is set. -/
theorem classify_llm_irrel (llm1 llm2 : Bool) (items : List Item) :
    classify llm1 true items = classify llm2 true items := by
  induction items with
  | nil => rfl
  | cons hd rest ih => simp [classify, ih]

/-- The skip note for an ungraded assignment is logged whenever neither
`llm` nor `eva` is set. -/
theorem classify_skip_note (llm eva : Bool) (items : List Item) (item : Item)
    (hmem : item ∈ items)
    (htag : item.contentSummary.typeName = "ungradedAssignment")
    (hmode : (llm || eva) = false) :
    LogEntry.info "Skipping ungraded assignment!" ∈ (classify llm eva items).2 := by
  induction items with
  | nil => cases hmem
  | cons hd rest ih =>
    rcases List.mem_cons.mp hmem with rfl | hmem2
    · simp [classify, htag, hmode]
    · have hrec := ih hmem2
      simp only [classify]
      by_cases h1 : hd.contentSummary.typeName = "lecture"
      · cases eva <;> simp_all [classify]
      · by_cases h2 : hd.contentSummary.typeName = "supplement"
        · cases eva <;> simp_all [classify]
        · by_cases h3 : hd.contentSummary.typeName = "ungradedAssignment" ∨
              hd.contentSummary.typeName = "staffGraded"
          · rcases h3 with h3 | h3 <;> simp_all [classify]
          · simp_all [classify]

/-! ### Claims about the classifier and the flag handling -/

/-- Claim C5: with `eva = true`, classification leaves the videos bucket
and the readings bucket empty, for every input item list. -/
theorem c5_eva_buckets_empty (llm : Bool) (items : List Item) :
    (classify llm true items).1.videos = [] ∧
    (classify llm true items).1.readings = [] := by
  simp [classify_videos, classify_readings]

/-- Witness for C5 at a concrete input: a lecture and a supplement both
vanish under eva mode. -/
theorem c5_eva_buckets_empty_witness :
    (classify false true [vSample1, rSample1]).1.videos = [] ∧
    (classify false true [vSample1, rSample1]).1.readings = [] :=
  c5_eva_buckets_empty false [vSample1, rSample1]

/-- Claim C6: an input item tagged `ungradedAssignment` is in the
assessments bucket iff `llm or eva` holds; otherwise the skip note is
logged. -/
theorem c6_ungraded_iff_mode (llm eva : Bool) (items : List Item) (item : Item)
    (hmem : item ∈ items)
    (htag : item.contentSummary.typeName = "ungradedAssignment") :
    (item ∈ (classify llm eva items).1.assessments ↔ (llm || eva) = true) ∧
    ((llm || eva) = false →
      LogEntry.info "Skipping ungraded assignment!" ∈ (classify llm eva items).2) := by
  constructor
  · rw [classify_assessments]
    by_cases h : (llm || eva) = true
    · simp [h, List.mem_filter, hmem, solverTag, htag]
    · simp [h]
  · exact fun hmode => classify_skip_note llm eva items item hmem htag hmode

/-- Witness for C6 at a concrete input: one ungraded item in standard
mode is dropped with the skip note. -/
theorem c6_ungraded_iff_mode_witness :
    (aSample1 ∈ (classify false false [aSample1]).1.assessments ↔
      (false || false) = true) ∧
    ((false || false) = false →
      LogEntry.info "Skipping ungraded assignment!" ∈
        (classify false false [aSample1]).2) :=
  c6_ungraded_iff_mode false false [aSample1] aSample1 (by decide) (by decide)

/-- Claim C7: requesting `llm` and `eva` together behaves exactly as
`eva` alone: `main` normalizes to the same effective flags, and
`get_course` produces the same run outcome for every input. -/
theorem c7_eva_precedence (parallel : Bool) (vOut : Item → Except String Unit)
    (rBody : Item → String) (aOut : Item → Except String Unit)
    (sched : List Item → List Item) (items : List Item) :
    (mainNormalize true true parallel).1 = (mainNormalize false true parallel).1 ∧
    getCourse true true parallel vOut rBody aOut sched items =
      getCourse false true parallel vOut rBody aOut sched items := by
  constructor
  · cases parallel <;> simp [mainNormalize]
  · simp only [getCourse]
    rw [classify_llm_irrel true false items]

/-- Witness for C7 at a concrete input: one ungraded item, both flag
combinations produce the same run. -/
theorem c7_eva_precedence_witness :
    (mainNormalize true true false).1 = (mainNormalize false true false).1 ∧
    getCourse true true false okOut (fun _ => "Completed") okOut id [aSample1] =
      getCourse false true false okOut (fun _ => "Completed") okOut id [aSample1] :=
  c7_eva_precedence false okOut (fun _ => "Completed") okOut id [aSample1]

/-- Claim C8: classification puts any item in at most one bucket, and an
item with an unrecognized type tag in no bucket. -/
theorem c8_buckets_disjoint (llm eva : Bool) (items : List Item) (item : Item) :
    ¬(item ∈ (classify llm eva items).1.videos ∧
        item ∈ (classify llm eva items).1.readings) ∧
    ¬(item ∈ (classify llm eva items).1.videos ∧
        item ∈ (classify llm eva items).1.assessments) ∧
    ¬(item ∈ (classify llm eva items).1.readings ∧
        item ∈ (classify llm eva items).1.assessments) ∧
    (item.contentSummary.typeName ∉
        (["lecture", "supplement", "ungradedAssignment", "staffGraded"] : List String) →
      item ∉ (classify llm eva items).1.videos ∧
      item ∉ (classify llm eva items).1.readings ∧
      item ∉ (classify llm eva items).1.assessments) := by
  have hv : item ∈ (classify llm eva items).1.videos →
      item.contentSummary.typeName = "lecture" := by
    rw [classify_videos]
    split
    · simp
    · intro h; simpa using (List.mem_filter.mp h).2
  have hr : item ∈ (classify llm eva items).1.readings →
      item.contentSummary.typeName = "supplement" := by
    rw [classify_readings]
    split
    · simp
    · intro h; simpa using (List.mem_filter.mp h).2
  have ha : item ∈ (classify llm eva items).1.assessments →
      item.contentSummary.typeName = "ungradedAssignment" ∨
        item.contentSummary.typeName = "staffGraded" := by
    rw [classify_assessments]
    split
    · intro h
      have := (List.mem_filter.mp h).2
      simpa [solverTag] using this
    · simp
  refine ⟨?_, ?_, ?_, ?_⟩
  · rintro ⟨h1, h2⟩
    have e1 := hv h1
    have e2 := hr h2
    rw [e1] at e2
    exact absurd e2 (by decide)
  · rintro ⟨h1, h2⟩
    have e1 := hv h1
    rcases ha h2 with e2 | e2 <;> (rw [e1] at e2; exact absurd e2 (by decide))
  · rintro ⟨h1, h2⟩
    have e1 := hr h1
    rcases ha h2 with e2 | e2 <;> (rw [e1] at e2; exact absurd e2 (by decide))
  · intro hno
    refine ⟨fun h => ?_, fun h => ?_, fun h => ?_⟩
    · exact hno (by simp [hv h])
    · exact hno (by simp [hr h])
    · rcases ha h with e | e <;> exact hno (by simp [e])

/-- Witness for C8 at a concrete input: an unrecognized `quiz` item next
to a lecture item lands in no bucket. -/
theorem c8_buckets_disjoint_witness :
    ¬(xSample1 ∈ (classify false false [vSample1, xSample1]).1.videos ∧
        xSample1 ∈ (classify false false [vSample1, xSample1]).1.readings) ∧
    ¬(xSample1 ∈ (classify false false [vSample1, xSample1]).1.videos ∧
        xSample1 ∈ (classify false false [vSample1, xSample1]).1.assessments) ∧
    ¬(xSample1 ∈ (classify false false [vSample1, xSample1]).1.readings ∧
        xSample1 ∈ (classify false false [vSample1, xSample1]).1.assessments) ∧
    (xSample1.contentSummary.typeName ∉
        (["lecture", "supplement", "ungradedAssignment", "staffGraded"] : List String) →
      xSample1 ∉ (classify false false [vSample1, xSample1]).1.videos ∧
      xSample1 ∉ (classify false false [vSample1, xSample1]).1.readings ∧
      xSample1 ∉ (classify false false [vSample1, xSample1]).1.assessments) :=
  c8_buckets_disjoint false false [vSample1, xSample1] xSample1

/-- Claim C10: requesting `eva` and `parallel` together makes `main`
force `parallel` off and log a warning before the run starts. -/
theorem c10_parallel_forced_off (llm : Bool) :
    (mainNormalize llm true true).1.parallel = false ∧
    LogEntry.warning "parallel flag ignored in eva mode (no videos to process)." ∈
      (mainNormalize llm true true).2 := by
  cases llm <;> simp [mainNormalize]

/-- Witness for C10 at the concrete flag combination eva + parallel. -/
theorem c10_parallel_forced_off_witness :
    (mainNormalize false true true).1.parallel = false ∧
    LogEntry.warning "parallel flag ignored in eva mode (no videos to process)." ∈
      (mainNormalize false true true).2 :=
  c10_parallel_forced_off false

/-- Claim C4: a completion-POST body without the "Completed" marker makes
`read_item` log the soft failure and return normally, and the reading
loop still attempts every reading item. -/
theorem c4_reading_soft_failure (rBody : Item → String) (rs : List Item)
    (body : String) (h : strContains body "Completed" = false) :
    readItemLog body = [LogEntry.debug couldntReadMsg] ∧
    (runReadings rBody rs).attempted = rs ∧
    (runReadings rBody rs).err = none := by
  refine ⟨by simp [readItemLog, h], ?_, ?_⟩
  · induction rs with
    | nil => rfl
    | cons hd rest ih => simp [runReadings, ih]
  · cases rs with
    | nil => rfl
    | cons hd rest => simp [runReadings]

/-- Witness for C4 at a concrete input: the body "nope" lacks the marker,
the soft-failure line is logged, and the single reading is attempted. -/
theorem c4_reading_soft_failure_witness :
    readItemLog "nope" = [LogEntry.debug couldntReadMsg] ∧
    (runReadings (fun _ => "nope") [rSample1]).attempted = [rSample1] ∧
    (runReadings (fun _ => "nope") [rSample1]).err = none :=
  c4_reading_soft_failure (fun _ => "nope") [rSample1] "nope" (by decide)

/-! ### Video and assessment runner lemmas -/

/-- The sequential video loop on an all-successful oracle: every item is
logged by name, attempted and watched; nothing escapes. -/
theorem runVideosSeq_ok (vOut : Item → Except String Unit) (vs : List Item)
    (h : ∀ i ∈ vs, vOut i = Except.ok ()) :
    runVideosSeq vOut vs =
      ⟨vs.map (fun i => LogEntry.info i.name), vs, vs, none⟩ := by
  induction vs with
  | nil => rfl
  | cons hd rest ih =>
    have hh : vOut hd = Except.ok () := h hd (by simp)
    have ihh := ih (fun i hi => h i (by simp [hi]))
    simp [runVideosSeq, hh, ihh]

/-- The sequential video loop stops at the first raising item: the items
before it and the raiser itself are attempted, nothing after it is. -/
theorem runVideosSeq_fail (vOut : Item → Except String Unit)
    (pre post : List Item) (v : Item) (e : String)
    (hpre : ∀ i ∈ pre, vOut i = Except.ok ())
    (hv : vOut v = Except.error e) :
    runVideosSeq vOut (pre ++ v :: post) =
      ⟨(pre ++ [v]).map (fun i => LogEntry.info i.name), pre ++ [v], pre, some e⟩ := by
  induction pre with
  | nil => simp [runVideosSeq, hv]
  | cons hd rest ih =>
    have hh : vOut hd = Except.ok () := hpre hd (by simp)
    have ihh := ih (fun i hi => hpre i (by simp [hi]))
    simp [runVideosSeq, hh, ihh]

/-- The parallel branch on an all-successful completion order: every item
is attempted and watched, the Starting/Completed pairs are logged, and
nothing escapes. -/
theorem runVideosPar_ok (vOut : Item → Except String Unit) (vs : List Item)
    (h : ∀ i ∈ vs, vOut i = Except.ok ()) :
    runVideosPar vOut vs = ⟨parOkLog vs, vs, vs, none⟩ := by
  induction vs with
  | nil => rfl
  | cons hd rest ih =>
    have hh : vOut hd = Except.ok () := h hd (by simp)
    have ihh := ih (fun i hi => h i (by simp [hi]))
    simp [runVideosPar, processVideo, hh, ihh, parOkLog]

/-- Every item of the order has its Completed line in the all-ok parallel
log. -/
theorem mem_parOkLog {i : Item} {vs : List Item} (h : i ∈ vs) :
    LogEntry.info ("Completed: " ++ i.name) ∈ parOkLog vs := by
  induction vs with
  | nil => cases h
  | cons hd rest ih =>
    rcases List.mem_cons.mp h with rfl | h2
    · simp [parOkLog]
    · simp [parOkLog, ih h2]

/-! ### Claims about the runners and failure isolation -/

/-- Counterexample to claim C1 as stated: with items
lecture v1, lecture v2, supplement r1, ungraded a1 under llm mode and
sequential videos, v1 raising means v2 is never attempted and no reading
or assessment item is processed; the exception escapes `get_course`. -/
theorem c1_counterexample :
    getCourse true false false failOnV1 (fun _ => "Completed") okOut id
        [vSample1, vSample2, rSample1, aSample1] =
      ⟨[LogEntry.info "v1"], [vSample1], [], [], some "boom"⟩ ∧
    vSample2 ∉ ([vSample1] : List Item) := by decide

/-- Claim C1 (amended): in sequential video mode an exception while
processing an item is NOT caught at the item boundary: it propagates out
of `get_course`, so exactly the items up to and including the first
failing one are attempted and no reading or assessment item is processed.
(Per-item isolation exists only in the parallel branch.) -/
theorem c1_amended_seq_failure_propagates (llm : Bool)
    (vOut : Item → Except String Unit) (rBody : Item → String)
    (aOut : Item → Except String Unit) (sched : List Item → List Item)
    (items : List Item) (pre post : List Item) (v : Item) (e : String)
    (hsplit : (classify llm false items).1.videos = pre ++ v :: post)
    (hpre : ∀ i ∈ pre, vOut i = Except.ok ())
    (hfail : vOut v = Except.error e) :
    (getCourse llm false false vOut rBody aOut sched items).err = some e ∧
    (getCourse llm false false vOut rBody aOut sched items).videosAttempted =
      pre ++ [v] ∧
    (getCourse llm false false vOut rBody aOut sched items).readingsAttempted = [] ∧
    (getCourse llm false false vOut rBody aOut sched items).assessmentsAttempted
      = [] := by
  have hrun := runVideosSeq_fail vOut pre post v e hpre hfail
  simp only [getCourse]
  rw [hsplit, hrun]
  simp

/-- Witness for the amended C1 at a concrete input: two lectures, the
first raises, the second is never attempted. -/
theorem c1_amended_witness :
    (getCourse false false false failOnV1 (fun _ => "Completed") okOut id
        [vSample1, vSample2]).err = some "boom" ∧
    (getCourse false false false failOnV1 (fun _ => "Completed") okOut id
        [vSample1, vSample2]).videosAttempted = [vSample1] ∧
    (getCourse false false false failOnV1 (fun _ => "Completed") okOut id
        [vSample1, vSample2]).readingsAttempted = [] ∧
    (getCourse false false false failOnV1 (fun _ => "Completed") okOut id
        [vSample1, vSample2]).assessmentsAttempted = [] :=
  c1_amended_seq_failure_propagates false failOnV1 (fun _ => "Completed") okOut id
    [vSample1, vSample2] [] [vSample2] vSample1 "boom" (by decide)
    (fun i hi => absurd hi (List.not_mem_nil i)) (by decide)

/-- Counterexample to claim C2 as stated: with two assessment items the
solver exception on the first escapes the loop, so the second is never
attempted. -/
theorem c2_counterexample :
    runAssessments failOnA1 [aSample1, aSample2] =
      ⟨[LogEntry.info "Attempting to solve ungraded assessment.."],
        [aSample1], [], some "solver boom"⟩ ∧
    aSample2 ∉ ([aSample1] : List Item) := by decide

/-- Claim C2 (amended): an exception raised by the solver is NOT caught
at the item boundary: it escapes the assessment loop, so exactly the
solver-tagged items up to and including the first failing one are
attempted and the subsequent assessment items are not. -/
theorem c2_amended_solver_failure_propagates (aOut : Item → Except String Unit)
    (pre post : List Item) (a : Item) (e : String)
    (hpre : ∀ i ∈ pre, solverTag i.contentSummary.typeName = true →
      aOut i = Except.ok ())
    (ha : solverTag a.contentSummary.typeName = true)
    (hfail : aOut a = Except.error e) :
    (runAssessments aOut (pre ++ a :: post)).err = some e ∧
    (runAssessments aOut (pre ++ a :: post)).attempted =
      pre.filter (fun i => solverTag i.contentSummary.typeName) ++ [a] := by
  induction pre with
  | nil =>
    have ha2 : a.contentSummary.typeName = "ungradedAssignment" ∨
        a.contentSummary.typeName = "staffGraded" := by
      simpa [solverTag] using ha
    rcases ha2 with h | h <;> simp [runAssessments, h, hfail]
  | cons hd rest ih =>
    have ihh := ih (fun i hi hti => hpre i (by simp [hi]) hti)
    by_cases h1 : hd.contentSummary.typeName = "ungradedAssignment"
    · have hok : aOut hd = Except.ok () :=
        hpre hd (by simp) (by simp [solverTag, h1])
      simp [runAssessments, h1, hok, ihh, List.filter_cons, solverTag]
    · by_cases h2 : hd.contentSummary.typeName = "staffGraded"
      · have hok : aOut hd = Except.ok () :=
          hpre hd (by simp) (by simp [solverTag, h2])
        simp [runAssessments, h1, h2, hok, ihh, List.filter_cons, solverTag]
      · simp [runAssessments, h1, h2, ihh, List.filter_cons, solverTag]

/-- Witness for the amended C2 at a concrete input: an ungraded item
whose solver raises, followed by a staff-graded item that is then never
attempted. -/
theorem c2_amended_witness :
    (runAssessments failOnA1 ([] ++ aSample1 :: [aSample2])).err =
      some "solver boom" ∧
    (runAssessments failOnA1 ([] ++ aSample1 :: [aSample2])).attempted =
      List.filter (fun i => solverTag i.contentSummary.typeName) [] ++ [aSample1] :=
  c2_amended_solver_failure_propagates failOnA1 [] [aSample2] aSample1
    "solver boom" (fun i hi _ => absurd hi (List.not_mem_nil i)) (by decide)
    (by decide)

/-- Counterexample to claim C3 as stated: with one successful lecture the
parallel branch logs "Completed: v1" but the sequential loop logs only
the bare item name, so the sets of Completed log entries differ. -/
theorem c3_counterexample :
    LogEntry.info "Completed: v1" ∈ (runVideosPar okOut [vSample1]).log ∧
    LogEntry.info "Completed: v1" ∉ (runVideosSeq okOut [vSample1]).log ∧
    (runVideosSeq okOut [vSample1]).log = [LogEntry.info "v1"] := by decide

/-- Claim C3 (amended): with no failures, parallel and sequential video
processing watch the same items (same success set and count) and the
sequential loop, like the parallel one, lets nothing escape; but the log
output differs: the parallel branch emits a "Completed: name" line per
item while the sequential loop emits only the bare item names. -/
theorem c3_amended_par_seq_agree (vOut : Item → Except String Unit)
    (vs order : List Item) (hperm : order.Perm vs)
    (hok : ∀ i ∈ vs, vOut i = Except.ok ()) :
    (runVideosPar vOut order).completedItems.Perm
      (runVideosSeq vOut vs).completedItems ∧
    (runVideosPar vOut order).completedItems.length =
      (runVideosSeq vOut vs).completedItems.length ∧
    (runVideosSeq vOut vs).err = none ∧
    (∀ i ∈ vs,
      LogEntry.info ("Completed: " ++ i.name) ∈ (runVideosPar vOut order).log) ∧
    (runVideosSeq vOut vs).log = vs.map (fun i => LogEntry.info i.name) := by
  have hok2 : ∀ i ∈ order, vOut i = Except.ok () :=
    fun i hi => hok i (hperm.mem_iff.mp hi)
  rw [runVideosPar_ok vOut order hok2, runVideosSeq_ok vOut vs hok]
  refine ⟨hperm, hperm.length_eq, rfl, ?_, rfl⟩
  intro i hi
  exact mem_parOkLog (hperm.mem_iff.mpr hi)

/-- Witness for the amended C3 at a concrete input: one successful
lecture, identity completion order. -/
theorem c3_amended_witness :
    (runVideosPar okOut [vSample1]).completedItems.Perm
      (runVideosSeq okOut [vSample1]).completedItems ∧
    (runVideosPar okOut [vSample1]).completedItems.length =
      (runVideosSeq okOut [vSample1]).completedItems.length ∧
    (runVideosSeq okOut [vSample1]).err = none ∧
    (∀ i ∈ ([vSample1] : List Item),
      LogEntry.info ("Completed: " ++ i.name) ∈ (runVideosPar okOut [vSample1]).log) ∧
    (runVideosSeq okOut [vSample1]).log =
      [vSample1].map (fun i => LogEntry.info i.name) :=
  c3_amended_par_seq_agree okOut [vSample1] [vSample1] (List.Perm.refl _)
    (fun _ _ => rfl)

/-! ### The worker-pool cap -/

/-- Pool invariant: along every run of the bounded pool, at most
`maxWorkers` items are in flight, and the pending/running/done items are
exactly the submitted ones. -/
theorem pool_invariant (videos : List Item) (s : PoolState)
    (h : PoolReach (initPool videos) s) :
    s.running.length ≤ maxWorkers ∧
      (s.pending ++ s.running ++ s.done).Perm videos := by
  induction h with
  | refl => simp [initPool]
  | step hreach hstep ih =>
    cases hstep with
    | start item pending running done hlt =>
      refine ⟨by simpa using hlt, ?_⟩
      refine List.Perm.trans ?_ ih.2
      simp only [List.cons_append, List.append_assoc]
      exact List.perm_middle
    | finish item pending r1 r2 done =>
      constructor
      · have := ih.1
        simp only [List.length_append, List.length_cons] at this ⊢
        omega
      · refine List.Perm.trans ?_ ih.2
        simp only [List.append_assoc, List.cons_append]
        exact ((List.perm_middle).append_left r1).append_left pending

/-- A pool state with no possible step has drained completely. -/
theorem poolStuck_drained (s : PoolState) (hs : PoolStuck s) :
    s.pending = [] ∧ s.running = [] := by
  obtain ⟨pending, running, done⟩ := s
  have hrun : running = [] := by
    cases running with
    | nil => rfl
    | cons r rs => exact absurd (PoolStep.finish r pending [] rs done) (hs _)
  subst hrun
  have hpend : pending = [] := by
    cases pending with
    | nil => rfl
    | cons p ps =>
      exact absurd (PoolStep.start p ps [] done (by simp [maxWorkers])) (hs _)
  exact ⟨hpend, rfl⟩

/-- Claim C9: in parallel mode, starting from all videos submitted, every
reachable pool state has at most 30 items in flight, and the phase can
only end (no step possible, which is when `as_completed` and the `with`
block let `get_course` move on to readings) once every submitted item has
finished. -/
theorem c9_pool_cap_and_join (videos : List Item) (s : PoolState)
    (h : PoolReach (initPool videos) s) :
    s.running.length ≤ maxWorkers ∧
      (PoolStuck s → s.pending = [] ∧ s.running = [] ∧ s.done.Perm videos) := by
  have hinv := pool_invariant videos s h
  refine ⟨hinv.1, fun hs => ?_⟩
  obtain ⟨hp, hr⟩ := poolStuck_drained s hs
  refine ⟨hp, hr, ?_⟩
  have hperm := hinv.2
  rw [hp, hr] at hperm
  simpa using hperm

/-- Witness for C9 at a concrete input: the initial state with one
submitted lecture is reachable and satisfies the cap and join property. -/
theorem c9_pool_cap_and_join_witness :
    (initPool [vSample1]).running.length ≤ maxWorkers ∧
      (PoolStuck (initPool [vSample1]) →
        (initPool [vSample1]).pending = [] ∧
        (initPool [vSample1]).running = [] ∧
        (initPool [vSample1]).done.Perm [vSample1]) :=
  c9_pool_cap_and_join [vSample1] (initPool [vSample1]) PoolReach.refl

end Skipera
